import Mathlib

set_option maxRecDepth 8192

/-
Verification of the pattern-based legislation extractor and the extract
endpoint of the PLS sandbox server.

Embedding conventions:
- JS strings are modelled as Lean String / List Char, i.e. sequences of
  code points.  All inputs appearing in the claims are ASCII, where the
  two views coincide with UTF-16 code units.
- Each JS regular expression is embedded as a dedicated backtracking
  matcher that follows the engine semantics: leftmost match position
  wins, alternatives are tried left to right, greedy quantifiers try
  longer repetitions first, lazy quantifiers try shorter ones first.
- Case folding for the i flag and for toUpperCase and toLowerCase is
  modelled on the ASCII letters, which covers every literal in the
  source patterns.
- All definitions are structurally recursive so that concrete instances
  evaluate inside the kernel.
-/

namespace PLS

/-! ### Character classes used by the source regexes -/

/-- The JS whitespace class: WhiteSpace plus LineTerminator code points. -/
def isSpaceJS (c : Char) : Bool :=
  c = ' ' || c = '\t' || c = '\n' || c = '\x0b' || c = '\x0c' || c = '\r' ||
  c = '\u00A0' || c = '\u1680' || ('\u2000' ≤ c && c ≤ '\u200A') ||
  c = '\u2028' || c = '\u2029' || c = '\u202F' || c = '\u205F' ||
  c = '\u3000' || c = '\uFEFF'

/-- The colon-or-whitespace class of the title and section patterns. -/
def isColonWs (c : Char) : Bool := c = ':' || isSpaceJS c

def isDigitCh (c : Char) : Bool := '0' ≤ c && c ≤ '9'

def isLowerAZ (c : Char) : Bool := 'a' ≤ c && c ≤ 'z'

def isUpperAZ (c : Char) : Bool := 'A' ≤ c && c ≤ 'Z'

def isLetterAZ (c : Char) : Bool := isLowerAZ c || isUpperAZ c

/-- The word-character class backing the backslash-b assertion. -/
def isWordChar (c : Char) : Bool :=
  isLowerAZ c || isUpperAZ c || isDigitCh c || c = '_'

def lcAscii (c : Char) : Char :=
  if isUpperAZ c then Char.ofNat (c.toNat + 32) else c

def ucAscii (c : Char) : Char :=
  if isLowerAZ c then Char.ofNat (c.toNat - 32) else c

/-! ### String helpers shared by both extractor copies -/

/-- JS String.prototype.trim applied to a character list. -/
def trimJSList (l : List Char) : List Char :=
  ((l.dropWhile isSpaceJS).reverse.dropWhile isSpaceJS).reverse

def trimS (l : List Char) : String := String.mk (trimJSList l)

def trimJS (s : String) : String := String.mk (trimJSList s.data)

/-- Global replacement of maximal whitespace runs by a single space,
as in the replace call with the backslash-s-plus pattern. -/
def collapseWsAux : Bool → List Char → List Char
  | _, [] => []
  | prevWs, c :: rest =>
    if isSpaceJS c then
      if prevWs then collapseWsAux true rest
      else ' ' :: collapseWsAux true rest
    else c :: collapseWsAux false rest

def collapseWs (l : List Char) : List Char := collapseWsAux false l

/-- Case-insensitive literal prefix match; the pattern is given in
lowercase.  Returns the rest of the input on success. -/
def stripPrefixCI : List Char → List Char → Option (List Char)
  | [], l => some l
  | _ :: _, [] => none
  | p :: ps, c :: cs => if lcAscii c = p then stripPrefixCI ps cs else none

/-! ### Filename-derived title (lines 140-145 of server.js and the
identical lines 58-63 of aiService.js) -/

/-- The first replace call: strip a trailing dot-extension containing
neither a slash nor a further dot. -/
def stripExt (l : List Char) : List Char :=
  let rev := l.reverse
  let ext := rev.takeWhile (fun c => c ≠ '.' && c ≠ '/')
  match rev.drop ext.length with
  | '.' :: restRev => if ext.isEmpty then l else restRev.reverse
  | _ => l

/-- The second replace call: hyphens and underscores become spaces. -/
def dashUnderscoreToSpace (c : Char) : Char :=
  if c = '-' || c = '_' then ' ' else c

/-- The third replace call: insert a space at each lower-to-upper
transition, scanning left to right without overlap. -/
def camelSplit : List Char → List Char
  | [] => []
  | [c] => [c]
  | c1 :: c2 :: rest =>
    if isLowerAZ c1 && isUpperAZ c2 then c1 :: ' ' :: c2 :: camelSplit rest
    else c1 :: camelSplit (c2 :: rest)

/-- JS String.prototype.split with a single-character separator:
adjacent separators produce empty pieces. -/
def splitOnChar (sep : Char) : List Char → List (List Char)
  | [] => [[]]
  | c :: rest =>
    if c = sep then [] :: splitOnChar sep rest
    else
      match splitOnChar sep rest with
      | w :: ws => (c :: w) :: ws
      | [] => [[c]]

/-- charAt 0 uppercased plus the lowercased remainder of a word. -/
def titleCaseWord : List Char → List Char
  | [] => []
  | c :: rest => ucAscii c :: rest.map lcAscii

def joinSpace : List (List Char) → List Char
  | [] => []
  | [w] => w
  | w :: ws => w ++ ' ' :: joinSpace ws

/-- The full filename-to-title pipeline. -/
def fileTitle (filename : String) : String :=
  String.mk (joinSpace
    ((splitOnChar ' '
       (camelSplit ((stripExt filename.data).map dashUnderscoreToSpace))).map
      titleCaseWord))

/-! ### Title override (lines 148-151 of server.js): the pattern
anchored at start of text or after a newline, one of the act, bill, law
or title prefixes, one or more colon or whitespace characters, then a
nonempty run of non-newline characters, matched case-insensitively. -/

/-- The tail after the keyword: one or more colon or whitespace
characters (greedy, trying the longest run first) followed by a greedy
nonempty run of non-newline characters, the capture group. -/
def colonWsThenCapture : List Char → Option (List Char)
  | [] => none
  | c :: rest =>
    if isColonWs c then
      match colonWsThenCapture rest with
      | some cap => some cap
      | none =>
        match rest with
        | [] => none
        | d :: _ =>
          if d = '\n' then none
          else some (rest.takeWhile (fun x => x ≠ '\n'))
    else none

def tryTitleKw (kw : String) (l : List Char) : Option (List Char) :=
  match stripPrefixCI kw.data l with
  | some rest => colonWsThenCapture rest
  | none => none

/-- Attempt at one position, alternatives in engine order. -/
def titleAt (l : List Char) : Option (List Char) :=
  tryTitleKw ("an act") l <|> tryTitleKw ("an bill") l <|>
  tryTitleKw ("an law") l <|> tryTitleKw ("a act") l <|>
  tryTitleKw ("a bill") l <|> tryTitleKw ("a law") l <|>
  tryTitleKw ("title") l

/-- Attempts at every position right after a newline, left to right. -/
def titleScan : List Char → Option (List Char)
  | [] => none
  | c :: rest =>
    if c = '\n' then
      match titleAt rest with
      | some cap => some cap
      | none => titleScan rest
    else titleScan rest

/-- First match of the title pattern: the start-of-text branch is tried
first, then every newline position. -/
def titleOverride (text : List Char) : Option (List Char) :=
  match titleAt text with
  | some cap => some cap
  | none => titleScan text

/-! ### Year (lines 154-155): first word-bounded four-digit token
starting with 19 or 20. -/

def yearAt (l : List Char) (prevIsWord : Bool) : Option String :=
  match l with
  | c1 :: c2 :: c3 :: c4 :: rest =>
    if !prevIsWord &&
       ((c1 = '1' && c2 = '9') || (c1 = '2' && c2 = '0')) &&
       isDigitCh c3 && isDigitCh c4 &&
       (match rest with | [] => true | c5 :: _ => !isWordChar c5) then
      some (String.mk [c1, c2, c3, c4])
    else none
  | _ => none

def yearScan : List Char → Bool → Option String
  | [], _ => none
  | c :: rest, prevIsWord =>
    match yearAt (c :: rest) prevIsWord with
    | some s => some s
    | none => yearScan rest (isWordChar c)

/-! ### Summary section (lines 158-165): keyword, colon or whitespace
run, optional newline, a lazy run of 100 to 500 arbitrary characters,
terminated by a blank line or a newline followed by a letter (the A-Z
class is case-insensitive under the i flag). -/

def summaryTermOk : List Char → Bool
  | '\n' :: '\n' :: _ => true
  | '\n' :: c :: _ => isLetterAZ c
  | _ => false

/-- Lazy counted body: try the shortest admissible length first.  The
first argument bounds the remaining tries (401 values, 100 to 500). -/
def summaryBodyAux : Nat → Nat → List Char → Option (List Char)
  | 0, _, _ => none
  | k + 1, n, l =>
    if n ≤ l.length && summaryTermOk (l.drop n) then some (l.take n)
    else summaryBodyAux k (n + 1) l

def summaryBody (l : List Char) : Option (List Char) :=
  summaryBodyAux 401 100 l

/-- Optional newline, greedy: try consuming it first. -/
def summaryNl (l : List Char) : Option (List Char) :=
  match l with
  | '\n' :: rest =>
    (match summaryBody rest with
     | some cap => some cap
     | none => summaryBody l)
  | _ => summaryBody l

/-- Greedy colon-or-whitespace star: try run length j, then shorter. -/
def summaryWs : Nat → List Char → Option (List Char)
  | 0, l => summaryNl l
  | j + 1, l =>
    match summaryNl (l.drop (j + 1)) with
    | some cap => some cap
    | none => summaryWs j l

def summaryAfterKw (l : List Char) : Option (List Char) :=
  summaryWs (l.takeWhile isColonWs).length l

def trySummaryKw (kw : String) (l : List Char) : Option (List Char) :=
  match stripPrefixCI kw.data l with
  | some rest => summaryAfterKw rest
  | none => none

/-- One position: keyword alternatives in engine order, including the
greedy optional s of the objects alternative. -/
def summaryAt (l : List Char) : Option (List Char) :=
  trySummaryKw ("purpose") l <|> trySummaryKw ("summary") l <|>
  trySummaryKw ("overview") l <|> trySummaryKw ("objects") l <|>
  trySummaryKw ("object") l

def summaryScan : List Char → Option (List Char)
  | [] => none
  | c :: rest =>
    match summaryAt (c :: rest) with
    | some cap => some cap
    | none => summaryScan rest

/-- The first-500-characters, first-double-newline-segment fallback
paragraph (line 163), collapsed and trimmed (line 164). -/
def upToDoubleNl : List Char → List Char
  | [] => []
  | '\n' :: '\n' :: _ => []
  | c :: rest => c :: upToDoubleNl rest

def firstPara (text : String) : String :=
  String.mk (trimJSList (collapseWs (upToDoubleNl (text.data.take 500))))

/-! ### Objectives block (lines 168-172): keyword, colon or whitespace
run, optional newline, then one or more bullet lines, each a bullet
character followed by a nonempty non-newline run and an optional
newline, all greedy. -/

def bulletChar (c : Char) : Bool :=
  c = '•' || c = '-' || isDigitCh c || c = '('

def objRepsAux : Nat → List Char → List Char
  | 0, _ => []
  | _ + 1, [] => []
  | fuel + 1, c :: rest =>
    if bulletChar c then
      let line := rest.takeWhile (fun x => x ≠ '\n')
      if line.isEmpty then []
      else
        match rest.drop line.length with
        | '\n' :: rest3 => c :: line ++ '\n' :: objRepsAux fuel rest3
        | rest2 => c :: line ++ objRepsAux fuel rest2
    else []

def objStart (l : List Char) : Option (List Char) :=
  let cap := objRepsAux l.length l
  if cap.isEmpty then none else some cap

def objNl (l : List Char) : Option (List Char) :=
  match l with
  | '\n' :: rest =>
    (match objStart rest with
     | some cap => some cap
     | none => objStart l)
  | _ => objStart l

def objWs : Nat → List Char → Option (List Char)
  | 0, l => objNl l
  | j + 1, l =>
    match objNl (l.drop (j + 1)) with
    | some cap => some cap
    | none => objWs j l

def objAfterKw (l : List Char) : Option (List Char) :=
  objWs (l.takeWhile isColonWs).length l

def tryObjKw (kw : String) (l : List Char) : Option (List Char) :=
  match stripPrefixCI kw.data l with
  | some rest => objAfterKw rest
  | none => none

def objAt (l : List Char) : Option (List Char) :=
  tryObjKw ("objectives") l <|> tryObjKw ("objective") l <|>
  tryObjKw ("aims") l <|> tryObjKw ("aim") l <|>
  tryObjKw ("purposes") l <|> tryObjKw ("purpose") l

def objScan : List Char → Option (List Char)
  | [] => none
  | c :: rest =>
    match objAt (c :: rest) with
    | some cap => some cap
    | none => objScan rest

/-! ### Agencies (lines 176-180): global case-insensitive scan for the
eight keywords, each extended by up to fifty non-comma non-newline
characters; matches are non-overlapping, continuing after each match. -/

def tryAgencyKw (kw : String) (l : List Char) : Option (List Char × List Char) :=
  match stripPrefixCI kw.data l with
  | some rest => some (l.take kw.length, rest)
  | none => none

def agencyKwAt (l : List Char) : Option (List Char × List Char) :=
  tryAgencyKw ("minister") l <|> tryAgencyKw ("ministry") l <|>
  tryAgencyKw ("department") l <|> tryAgencyKw ("agency") l <|>
  tryAgencyKw ("authority") l <|> tryAgencyKw ("commission") l <|>
  tryAgencyKw ("board") l <|> tryAgencyKw ("office") l

def agencyScanAux : Nat → List Char → List (List Char)
  | 0, _ => []
  | _ + 1, [] => []
  | fuel + 1, c :: rest =>
    match agencyKwAt (c :: rest) with
    | some (kw, r) =>
      let ext := (r.takeWhile (fun x => x ≠ ',' && x ≠ '\n')).take 50
      (kw ++ ext) :: agencyScanAux fuel (r.drop ext.length)
    | none => agencyScanAux fuel rest

/-- JS Set-based deduplication: keep the first occurrence, preserve
order.  The accumulator holds the values already seen. -/
def dedupAux : List String → List String → List String
  | _, [] => []
  | seen, s :: rest =>
    if s ∈ seen then dedupAux seen rest
    else s :: dedupAux (s :: seen) rest

/-- JS Array.prototype.join with a separator. -/
def joinSep (sep : String) : List String → String
  | [] => ""
  | [s] => s
  | s :: rest => s ++ sep ++ joinSep sep rest

/-! ### The extractor fields and result record -/

def defaultSummary : String :=
  "This legislation establishes a framework for governance in its designated policy area."

def defaultObjectives : String :=
  "• To be extracted from the document\n• Review the full text for specific objectives"

def defaultAgencies : String :=
  "Relevant government ministries and agencies"

def titleField (text filename : String) : String :=
  match titleOverride text.data with
  | some cap => trimS cap
  | none => fileTitle filename

def yearField (text : String) : String :=
  (yearScan text.data false).getD ""

def summaryRaw (text : String) : String :=
  match summaryScan text.data with
  | some cap => String.mk ((collapseWs (trimJSList cap)).take 300)
  | none => firstPara text

def summaryField (text : String) : String :=
  if summaryRaw text = "" then defaultSummary else summaryRaw text

def objectivesRaw (text : String) : String :=
  match objScan text.data with
  | some cap => trimS cap
  | none => ""

def objectivesField (text : String) : String :=
  if objectivesRaw text = "" then defaultObjectives else objectivesRaw text

def agenciesRaw (text : String) : String :=
  match agencyScanAux text.data.length text.data with
  | [] => ""
  | ms => joinSep (", ") ((dedupAux [] (ms.map (fun m => trimS m))).take 5)

def agenciesField (text : String) : String :=
  if agenciesRaw text = "" then defaultAgencies else agenciesRaw text

structure ExtractionResult where
  legislationTitle : String
  legislationYear : String
  legislationSummary : String
  primaryObjectives : String
  implementingAgencies : String
  suggestedCountry : String
  jurisdictionLevel : String
  parliamentType : String
  keyProvisions : String
  reviewClauses : String
deriving DecidableEq

/-- The server-side extractFallback of server.js, lines 138-194. -/
def extractFallback (text filename : String) : ExtractionResult :=
  { legislationTitle := titleField text filename
    legislationYear := yearField text
    legislationSummary := summaryField text
    primaryObjectives := objectivesField text
    implementingAgencies := agenciesField text
    suggestedCountry := ""
    jurisdictionLevel := "national"
    parliamentType := ""
    keyProvisions := ""
    reviewClauses := "" }

/-- The returned record as a key-value list, in the literal order of
the source object, mirroring a JS object of string values. -/
def resultPairs (r : ExtractionResult) : List (String × String) :=
  [("legislationTitle", r.legislationTitle),
   ("legislationYear", r.legislationYear),
   ("legislationSummary", r.legislationSummary),
   ("primaryObjectives", r.primaryObjectives),
   ("implementingAgencies", r.implementingAgencies),
   ("suggestedCountry", r.suggestedCountry),
   ("jurisdictionLevel", r.jurisdictionLevel),
   ("parliamentType", r.parliamentType),
   ("keyProvisions", r.keyProvisions),
   ("reviewClauses", r.reviewClauses)]

def extractFallbackObj (text filename : String) : List (String × String) :=
  resultPairs (extractFallback text filename)

/-- The client-side extractLegislationFallback of aiService.js, lines
56-113.  A line diff of the two source bodies shows they are character
for character identical except for the signature line and one extra
property in the returned object, so the shared pipeline above is reused
and the extra property is appended. -/
def extractLegislationFallback (text filename : String) : List (String × String) :=
  resultPairs (extractFallback text filename) ++ [("_method", "fallback")]

/-! ### The extract endpoint (server.js lines 55-135) -/

/-- Outcome of the upstream model call: the awaited fetch chain throws,
returns a non-success status, or returns reply content text. -/
inductive Upstream where
  | thrown (msg : String)
  | notOk
  | okContent (content : String)
deriving DecidableEq

/-- The endpoint reply: a 400 validation error, or a JSON envelope. -/
inductive ApiResponse where
  | badRequest (error : String)
  | ok (success : Bool) (method : String) (data : List (String × String))
      (warning : Option String)
deriving DecidableEq

/-- The first brace-to-brace span (line 113): from the first opening
brace to the last closing brace after it, none if there is no such
pair. -/
def jsonSpan (c : List Char) : Option (List Char) :=
  match c.dropWhile (fun x => x ≠ '{') with
  | [] => none
  | l =>
    match l.reverse.dropWhile (fun x => x ≠ '}') with
    | [] => none
    | r => some r.reverse

/-- The extract endpoint.  The model JSON.parse is abstracted as the
parse argument; a parse failure throws into the catch block with an
engine-dependent message, modelled by a fixed placeholder string. -/
def apiExtract (parse : String → Option (List (String × String)))
    (hasKey : Bool) (up : Upstream)
    (text : Option String) (filename : Option String) : ApiResponse :=
  match text with
  | none => ApiResponse.badRequest ("Document text is too short for analysis")
  | some t =>
    if t = "" ∨ (trimJS t).length < 50 then
      ApiResponse.badRequest ("Document text is too short for analysis")
    else if hasKey then
      match up with
      | Upstream.thrown m =>
        ApiResponse.ok true ("fallback")
          (extractFallbackObj t (filename.getD ("document.txt"))) (some m)
      | Upstream.notOk =>
        ApiResponse.ok true ("fallback")
          (extractFallbackObj t (filename.getD ("document.txt")))
          (some ("AI extraction failed, used pattern matching"))
      | Upstream.okContent c =>
        match jsonSpan c.data with
        | some s =>
          match parse (String.mk s) with
          | some d => ApiResponse.ok true ("ai") d none
          | none =>
            ApiResponse.ok true ("fallback")
              (extractFallbackObj t (filename.getD ("document.txt")))
              (some ("Unexpected token in JSON"))
        | none =>
          ApiResponse.ok true ("fallback")
            (extractFallbackObj t (filename.getD ("document.txt")))
            (some ("Could not parse AI response as JSON"))
    else
      ApiResponse.ok true ("fallback")
        (extractFallbackObj t (filename.getD ("document.txt"))) none

def isBadRequest : ApiResponse → Bool
  | ApiResponse.badRequest _ => true
  | ApiResponse.ok _ _ _ _ => false

/-- The failure modes of the AI path named by the fallback contract. -/
def aiPathFails (parse : String → Option (List (String × String)))
    (hasKey : Bool) (up : Upstream) : Prop :=
  hasKey = false ∨
  (∃ m, up = Upstream.thrown m) ∨
  up = Upstream.notOk ∨
  (∃ c, up = Upstream.okContent c ∧ jsonSpan c.data = none) ∨
  (∃ c s, up = Upstream.okContent c ∧ jsonSpan c.data = some s ∧
    parse (String.mk s) = none)

/-! ### Helper lemmas -/

theorem dedupAux_spec (l : List String) : ∀ seen : List String,
    (dedupAux seen l).Nodup ∧ ∀ s ∈ dedupAux seen l, s ∉ seen := by
  induction l with
  | nil =>
    intro seen
    constructor
    · exact List.nodup_nil
    · intro s hs
      simp [dedupAux] at hs
  | cons a rest ih =>
    intro seen
    by_cases h : a ∈ seen
    · have heq : dedupAux seen (a :: rest) = dedupAux seen rest := by
        simp [dedupAux, h]
      refine ⟨?_, ?_⟩
      · rw [heq]; exact (ih seen).1
      · intro s hs
        rw [heq] at hs
        exact (ih seen).2 s hs
    · have heq : dedupAux seen (a :: rest) = a :: dedupAux (a :: seen) rest := by
        simp [dedupAux, h]
      refine ⟨?_, ?_⟩
      · rw [heq]
        refine List.nodup_cons.mpr ⟨?_, (ih (a :: seen)).1⟩
        intro hmem
        exact (ih (a :: seen)).2 a hmem (List.mem_cons_self a seen)
      · intro s hs
        rw [heq] at hs
        rcases List.mem_cons.mp hs with rfl | hs2
        · exact h
        · intro hseen
          exact (ih (a :: seen)).2 s hs2 (List.mem_cons_of_mem a hseen)

/-! ### Claims -/

/-- C1: for every pair of input strings the Pattern Extractor returns a
fully populated ExtractionResult whose ten fields are all present
string values; totality and the never-raises property hold by
construction, every embedded operation being total. -/
theorem C1_extractor_total (text filename : String) :
    (∃ a b c d e g h i j k : String,
        extractFallback text filename = ⟨a, b, c, d, e, g, h, i, j, k⟩) ∧
      (resultPairs (extractFallback text filename)).map Prod.fst =
        ["legislationTitle", "legislationYear", "legislationSummary",
         "primaryObjectives", "implementingAgencies", "suggestedCountry",
         "jurisdictionLevel", "parliamentType", "keyProvisions",
         "reviewClauses"] :=
  ⟨⟨_, _, _, _, _, _, _, _, _, _, rfl⟩, rfl⟩

/-- C2: whenever the AI path fails (missing credential, thrown upstream
call, non-success status, or no parsable JSON object in the reply), the
extract endpoint returns a success envelope with method fallback whose
data is exactly the Pattern Extractor result for the same text and
filename. -/
theorem C2_fallback_envelope (parse : String → Option (List (String × String)))
    (hasKey : Bool) (up : Upstream) (t f : String)
    (hv : ¬(t = "" ∨ (trimJS t).length < 50))
    (hfail : aiPathFails parse hasKey up) :
    ∃ w, apiExtract parse hasKey up (some t) (some f) =
      ApiResponse.ok true ("fallback") (extractFallbackObj t f) w := by
  rcases hfail with hk | ⟨m, hu⟩ | hu | ⟨c, hu, hj⟩ | ⟨c, s, hu, hj, hp⟩
  · subst hk
    exact ⟨none, by simp [apiExtract, hv]⟩
  · subst hu
    cases hasKey
    · exact ⟨none, by simp [apiExtract, hv]⟩
    · exact ⟨some m, by simp [apiExtract, hv]⟩
  · subst hu
    cases hasKey
    · exact ⟨none, by simp [apiExtract, hv]⟩
    · exact ⟨some ("AI extraction failed, used pattern matching"),
        by simp [apiExtract, hv]⟩
  · subst hu
    cases hasKey
    · exact ⟨none, by simp [apiExtract, hv]⟩
    · exact ⟨some ("Could not parse AI response as JSON"),
        by simp [apiExtract, hv, hj]⟩
  · subst hu
    cases hasKey
    · exact ⟨none, by simp [apiExtract, hv]⟩
    · exact ⟨some ("Unexpected token in JSON"),
        by simp [apiExtract, hv, hj, hp]⟩

/-- C2 witness: a concrete non-success upstream status. -/
theorem C2_fallback_envelope_witness :
    ∃ w, apiExtract (fun _ => none) true Upstream.notOk
        (some ("Lorem ipsum dolor sit amet consectetur adipiscing elit sed do eiusmod tempor"))
        (some ("doc.txt")) =
      ApiResponse.ok true ("fallback")
        (extractFallbackObj
          ("Lorem ipsum dolor sit amet consectetur adipiscing elit sed do eiusmod tempor")
          ("doc.txt")) w :=
  C2_fallback_envelope (fun _ => none) true Upstream.notOk
    ("Lorem ipsum dolor sit amet consectetur adipiscing elit sed do eiusmod tempor")
    ("doc.txt") (by decide) (Or.inr (Or.inr (Or.inl rfl)))

/-- C3 counterexample: at a concrete input the two extractor copies do
not return identical objects, since the client copy carries an extra
final _method entry that the server copy lacks. -/
theorem C3_not_identical :
    extractFallbackObj ("Lorem ipsum dolor sit amet") ("doc.txt") ≠
      extractLegislationFallback ("Lorem ipsum dolor sit amet") ("doc.txt") := by
  decide

/-- C3 amended: the two copies are duplicated verbatim except that the
client copy appends the _method fallback property to the returned
object; for every pair of input strings they agree on all ten
ExtractionResult fields and differ only by that extra entry. -/
theorem C3_copies_agree (text filename : String) :
    extractLegislationFallback text filename =
      extractFallbackObj text filename ++ [("_method", "fallback")] := rfl

/-- C4 counterexample: the year pattern requires a word boundary after
the fourth digit, so the text in room 1999A yields the empty year, not
1999 as claimed. -/
theorem C4_year_boundary_counterexample :
    (extractFallback ("in room 1999A") ("doc.txt")).legislationYear = "" ∧
    (extractFallback ("in room 1999A") ("doc.txt")).legislationYear ≠ "1999" :=
  ⟨by decide, by decide⟩

/-- C4 amended: year extraction returns the first word-bounded
four-digit token beginning 19 or 20; enacted in 1998 yields 1998, the
first of several such years wins, a text with no such token yields the
empty string, and in room 1999A also yields the empty string because
the letter A is a word character, so the trailing boundary fails. -/
theorem C4_year_amended (filename : String) :
    (extractFallback ("...enacted in 1998 under...") filename).legislationYear = "1998" ∧
    (extractFallback ("from 1998 to 2007") filename).legislationYear = "1998" ∧
    (extractFallback ("in room 1999A") filename).legislationYear = "" ∧
    (extractFallback ("no digits here") filename).legislationYear = "" := by
  refine ⟨?_, ?_, ?_, ?_⟩
  · show yearField ("...enacted in 1998 under...") = "1998"
    decide
  · show yearField ("from 1998 to 2007") = "1998"
    decide
  · show yearField ("in room 1999A") = ""
    decide
  · show yearField ("no digits here") = ""
    decide

/-- C5: when the text has no in-text title line, the title is derived
from the filename by the strip-extension, hyphen-underscore-to-space,
camel-case-split and per-word title-case pipeline; the filename
community-empowermentAct.txt yields Community Empowerment Act. -/
theorem C5_filename_title (text filename : String)
    (h : titleOverride text.data = none) :
    (extractFallback text filename).legislationTitle = fileTitle filename ∧
    (extractFallback text ("community-empowermentAct.txt")).legislationTitle =
      "Community Empowerment Act" := by
  constructor
  · show titleField text filename = fileTitle filename
    unfold titleField
    rw [h]
  · show titleField text ("community-empowermentAct.txt") =
      "Community Empowerment Act"
    unfold titleField
    rw [h]
    decide

/-- C5 witness. -/
theorem C5_filename_title_witness :
    titleOverride ("Lorem ipsum dolor sit amet").data = none ∧
    (extractFallback ("Lorem ipsum dolor sit amet")
        ("community-empowermentAct.txt")).legislationTitle =
      "Community Empowerment Act" :=
  ⟨by decide,
   (C5_filename_title ("Lorem ipsum dolor sit amet") ("x") (by decide)).2⟩

/-- C6 counterexample: the text consisting of the single line AN ACT:
contains a line beginning with AN ACT followed by a colon, yet the
title stays filename-derived rather than becoming the trimmed (empty)
remainder of that line, because the pattern additionally requires at
least one non-newline character after the colon or whitespace run. -/
theorem C6_override_counterexample :
    (extractFallback ("AN ACT:") ("doc.txt")).legislationTitle = "Doc" ∧
    ("Doc" : String) ≠ "" :=
  ⟨by decide, by decide⟩

/-- C6 amended: when the override pattern matches, that is, one of the
seven prefixes stands at start of text or right after a newline and is
followed by one or more colon or whitespace characters (a run that may
include newlines) and then by at least one non-newline character, the
title is that trimmed non-newline run (taken from a following line when
the run crosses a newline), overriding the filename title, first match
winning; in particular the text AN ACT: The Data Protection Act yields
The Data Protection Act for every filename. -/
theorem C6_override_amended (filename : String) :
    (extractFallback ("AN ACT: The Data Protection Act") filename).legislationTitle =
      "The Data Protection Act" ∧
    ∀ (text : String) (cap : List Char), titleOverride text.data = some cap →
      (extractFallback text filename).legislationTitle = trimS cap := by
  constructor
  · have h : titleOverride ("AN ACT: The Data Protection Act").data =
        some (("The Data Protection Act").data) := by decide
    show titleField ("AN ACT: The Data Protection Act") filename =
      "The Data Protection Act"
    unfold titleField
    rw [h]
    show trimS (("The Data Protection Act").data) = "The Data Protection Act"
    decide
  · intro text cap h
    show titleField text filename = trimS cap
    unfold titleField
    rw [h]

/-- C6 witness. -/
theorem C6_override_amended_witness :
    (extractFallback ("AN ACT: The Data Protection Act")
        ("anything.txt")).legislationTitle = "The Data Protection Act" ∧
    (extractFallback ("Preamble\nTITLE: Zoning Act 2001")
        ("doc.txt")).legislationTitle = "Zoning Act 2001" := by
  constructor
  · exact (C6_override_amended ("anything.txt")).1
  · exact ((C6_override_amended ("doc.txt")).2
      ("Preamble\nTITLE: Zoning Act 2001") (("Zoning Act 2001").data)
      (by decide)).trans (by decide)

/-- C7: implementingAgencies joins the trimmed keyword matches with
comma-space after order-preserving deduplication capped at five: a text
with Ministry of Health three times plus five distinct other agency
phrases yields exactly the first five distinct entries in first-seen
order, and in general the deduplicated list is duplicate-free and the
cap keeps at most five entries. -/
theorem C7_agency_dedup_cap :
    (extractFallback
        ("Ministry of Health, Ministry of Health, Department of Works, Agency of Trade, Authority of Tax, Commission of Arts, Ministry of Health, Board of Trade")
        ("doc.txt")).implementingAgencies =
      "Ministry of Health, Department of Works, Agency of Trade, Authority of Tax, Commission of Arts" ∧
    ∀ ms : List String,
      ((dedupAux [] ms).take 5).length ≤ 5 ∧ (dedupAux [] ms).Nodup := by
  constructor
  · decide
  · intro ms
    constructor
    · rw [List.length_take]
      exact min_le_left _ _
    · exact (dedupAux_spec ms []).1

/-- C8: when the text matches none of the summary, objectives or agency
patterns, the summary is the first-paragraph fallback or the fixed
default sentence and never empty, the objectives equal the fixed
two-line placeholder, and the agencies equal the fixed phrase. -/
theorem C8_defaults (text filename : String)
    (hs : summaryScan text.data = none)
    (ho : objScan text.data = none)
    (ha : agencyScanAux text.data.length text.data = []) :
    ((extractFallback text filename).legislationSummary = firstPara text ∨
      (extractFallback text filename).legislationSummary = defaultSummary) ∧
    (extractFallback text filename).legislationSummary ≠ "" ∧
    (extractFallback text filename).primaryObjectives = defaultObjectives ∧
    (extractFallback text filename).implementingAgencies = defaultAgencies := by
  have hraw : summaryRaw text = firstPara text := by
    unfold summaryRaw
    rw [hs]
  refine ⟨?_, ?_, ?_, ?_⟩
  · show summaryField text = firstPara text ∨ summaryField text = defaultSummary
    unfold summaryField
    rw [hraw]
    by_cases hfp : firstPara text = ""
    · rw [if_pos hfp]
      exact Or.inr rfl
    · rw [if_neg hfp]
      exact Or.inl rfl
  · show summaryField text ≠ ""
    unfold summaryField
    rw [hraw]
    by_cases hfp : firstPara text = ""
    · rw [if_pos hfp]
      decide
    · rw [if_neg hfp]
      exact hfp
  · show objectivesField text = defaultObjectives
    unfold objectivesField objectivesRaw
    rw [ho]
    rfl
  · show agenciesField text = defaultAgencies
    unfold agenciesField agenciesRaw
    rw [ha]
    rfl

/-- C8 witness. -/
theorem C8_defaults_witness :
    summaryScan ("Lorem ipsum dolor sit amet consectetur adipiscing elit sed do eiusmod tempor").data = none ∧
    ((extractFallback ("Lorem ipsum dolor sit amet consectetur adipiscing elit sed do eiusmod tempor") ("doc.txt")).legislationSummary =
        firstPara ("Lorem ipsum dolor sit amet consectetur adipiscing elit sed do eiusmod tempor") ∨
      (extractFallback ("Lorem ipsum dolor sit amet consectetur adipiscing elit sed do eiusmod tempor") ("doc.txt")).legislationSummary =
        defaultSummary) ∧
    (extractFallback ("Lorem ipsum dolor sit amet consectetur adipiscing elit sed do eiusmod tempor") ("doc.txt")).primaryObjectives =
      defaultObjectives ∧
    (extractFallback ("Lorem ipsum dolor sit amet consectetur adipiscing elit sed do eiusmod tempor") ("doc.txt")).implementingAgencies =
      defaultAgencies := by
  have h := C8_defaults
    ("Lorem ipsum dolor sit amet consectetur adipiscing elit sed do eiusmod tempor")
    ("doc.txt") (by decide) (by decide) (by decide)
  exact ⟨by decide, h.1, h.2.2.1, h.2.2.2⟩

/-- C9: the extract endpoint rejects with a validation error exactly
when the text is missing or its trimmed length is below fifty
characters; a text whose trimmed length is at least fifty is never
rejected. -/
theorem C9_validation (parse : String → Option (List (String × String)))
    (hasKey : Bool) (up : Upstream) (text : Option String)
    (filename : Option String) :
    isBadRequest (apiExtract parse hasKey up text filename) = true ↔
      (text = none ∨ ∃ t, text = some t ∧ (trimJS t).length < 50) := by
  cases text with
  | none => simp [apiExtract, isBadRequest]
  | some t =>
    by_cases h : t = "" ∨ (trimJS t).length < 50
    · have hlt : (trimJS t).length < 50 := by
        rcases h with rfl | hlen
        · decide
        · exact hlen
      have hbad : apiExtract parse hasKey up (some t) filename =
          ApiResponse.badRequest ("Document text is too short for analysis") := by
        simp only [apiExtract]
        rw [if_pos h]
      rw [hbad]
      constructor
      · intro _
        exact Or.inr ⟨t, rfl, hlt⟩
      · intro _
        rfl
    · have hfalse : isBadRequest (apiExtract parse hasKey up (some t) filename) = false := by
        simp only [apiExtract]
        rw [if_neg h]
        cases hasKey
        · rfl
        · cases up with
          | thrown m => rfl
          | notOk => rfl
          | okContent c =>
            cases hjs : jsonSpan c.data with
            | none => simp [hjs, isBadRequest]
            | some s =>
              cases hp : parse (String.mk s) with
              | none => simp [hjs, hp, isBadRequest]
              | some d => simp [hjs, hp, isBadRequest]
      rw [hfalse]
      constructor
      · intro hb
        exact absurd hb (by decide)
      · rintro (hnone | ⟨t2, ht2, hlen⟩)
        · exact Option.noConfusion hnone
        · injection ht2 with ht3
          have : (trimJS t).length < 50 := by
            rw [ht3]
            exact hlen
          exact absurd this (fun hl => h (Or.inr hl))

/-- C10: agency deduplication compares the trimmed matches exactly and
hence case-sensitively, even though the keyword search itself is
case-insensitive: the same phrase in two capitalizations yields two
distinct entries, both counting against the cap of five, here pushing
the sixth distinct phrase out. -/
theorem C10_case_sensitive_dedup :
    (extractFallback
        ("Ministry of Health, MINISTRY OF HEALTH, Department of Works, Agency of Trade, Authority of Tax, Board of Trade")
        ("doc.txt")).implementingAgencies =
      "Ministry of Health, MINISTRY OF HEALTH, Department of Works, Agency of Trade, Authority of Tax" := by
  decide

end PLS
